import Mathlib

/-!
# Verification of the notebook QA checkers

A shallow embedding of the Python sources under `process-notebooks/checkers/`
(`qa_config.py`, `doi_checker.py`, `figure_checker.py`, `metadata_checker.py`,
`accessibility_checker.py`, `utils.py`) together with proofs about the
configuration filter, the per-checker cell scanners, and the results writer.

Conventions of the embedding:
* Python strings are Lean `String`s; scanning is done on `List Char`.
* Python dicts whose iteration order matters are association lists in
  insertion order; Python sets are lists used up to membership (`dedup`).
* The regular expressions appearing in the sources are compiled by hand into
  deterministic scanners.  Each scanner's doc comment names the regex it
  implements; the backtracking behaviour of each pattern was analysed and is
  deterministic for these patterns, so the scanners are plain recursions.
* File system and network interactions are out of scope: notebooks arrive
  already parsed, the DOI resolution service is an explicit
  `String → Option Bool` argument (mirroring `validate_doi_resolves`'s
  tri-state result), a sibling `README.md` is an `Option String`, and the
  HTML `img`-tag extraction done by BeautifulSoup is an explicit
  `String → List (Option String)` argument (list of `alt` attributes).
-/

/-! ## Generic string helpers -/

/-- Python's `\s` character class, restricted to its ASCII fragment
`[ \t\n\r\x0b\x0c]` (the notebooks' texts are ASCII-oriented). -/
def isPySpace (c : Char) : Bool :=
  c == ' ' || c == '\t' || c == '\n' || c == '\r' || c == '\x0b' || c == '\x0c'

/-- `listPre n l` is true iff `n` is a prefix of `l` (by `==` on chars). -/
def listPre : List Char → List Char → Bool
  | [], _ => true
  | _ :: _, [] => false
  | a :: as, b :: bs => a == b && listPre as bs

/-- `listSub n l`: `n` occurs as a contiguous sublist of `l` (it is a prefix
at some position, the empty needle matching everywhere).  This is the model
of Python's substring test `n in l`. -/
def listSub : List Char → List Char → Bool
  | n, [] => n.isEmpty
  | n, c :: t => listPre n (c :: t) || listSub n t

/-- Python's `needle in hay` on strings. -/
def strContains (hay needle : String) : Bool :=
  listSub needle.toList hay.toList

/-- Case-insensitively strip the literal `lit` from the front of `l`,
returning the remainder.  Models a case-insensitive regex literal. -/
def stripCi : List Char → List Char → Option (List Char)
  | [], l => some l
  | _ :: _, [] => none
  | a :: as, c :: cs => if a.toLower == c.toLower then stripCi as cs else none

/-- Python's `str.strip()` (with the ASCII `\s` fragment). -/
def pyStrip (s : String) : String :=
  String.mk (((s.toList.dropWhile isPySpace).reverse.dropWhile isPySpace).reverse)

/-- Python's `str.lower()` (ASCII fragment; DOIs and check results are
ASCII). -/
def pyLower (s : String) : String :=
  String.mk (s.toList.map Char.toLower)

/-- `re.search` driver: does the head-matcher `m` succeed at some position? -/
def searchBool (m : List Char → Bool) : List Char → Bool
  | [] => m []
  | c :: rest => m (c :: rest) || searchBool m rest

/-- `re.search` driver returning the leftmost successful head-match value. -/
def searchFirstSome (m : List Char → Option String) : List Char → Option String
  | [] => m []
  | c :: rest =>
    match m (c :: rest) with
    | some d => some d
    | none => searchFirstSome m rest

/-- `re.findall` driver: scan left to right, on a head-match emit the group
and continue after the match (non-overlapping), otherwise advance one
character.  `fuel` is the length of the scanned text; every head-matcher used
here consumes at least one character on success, so the fuel never runs out. -/
def findAllAux (m : List Char → Option (List Char × List Char)) :
    Nat → List Char → List (List Char)
  | 0, _ => []
  | _ + 1, [] => []
  | fuel + 1, c :: rest =>
    match m (c :: rest) with
    | some (g, after) => g :: findAllAux m fuel after
    | none => findAllAux m fuel rest

/-- `re.findall` over a string, emitting groups as strings. -/
def findAllStr (m : List Char → Option (List Char × List Char)) (s : String) :
    List String :=
  (findAllAux m s.toList.length s.toList).map (fun g => String.mk g)

/-! ## `fnmatch` — shell-style glob matching

Model of CPython's `fnmatch.fnmatch` on a POSIX system (`os.path.normcase`
is the identity there): `*` matches any sequence, `?` any single character,
`[seq]` a character class (leading `!` negates; a `]` right after the
opening may appear literally; an unterminated `[` is a literal). -/

inductive GlobItem where
  | single (c : Char)
  | range (a b : Char)
deriving DecidableEq

inductive GlobTok where
  | lit (c : Char)
  | anyOne
  | star
  | cls (neg : Bool) (items : List GlobItem)
deriving DecidableEq

/-- Scan for the closing `]` of a character class; returns the class body and
the remainder after the `]`. -/
def scanClose (acc : List Char) : List Char → Option (List Char × List Char)
  | [] => none
  | ']' :: rest => some (acc.reverse, rest)
  | c :: rest => scanClose (c :: acc) rest

/-- A `]` directly after the `[` (or after `[!`) is part of the class body. -/
def scanCloseSpecial : List Char → Option (List Char × List Char)
  | ']' :: rest => scanClose [']'] rest
  | rest => scanClose [] rest

/-- Split a class: input is what follows `[`; returns negation flag, class
body and remainder after the closing `]`. -/
def classSplit (l : List Char) : Option (Bool × List Char × List Char) :=
  match l with
  | '!' :: rest => (scanCloseSpecial rest).map (fun p => (true, p.1, p.2))
  | rest => (scanCloseSpecial rest).map (fun p => (false, p.1, p.2))

/-- Parse a class body into items (`a-b` ranges, otherwise singles). -/
def parseItems : List Char → List GlobItem
  | a :: '-' :: b :: rest => .range a b :: parseItems rest
  | a :: rest => .single a :: parseItems rest
  | [] => []

/-- Compile a glob pattern into tokens (CPython `fnmatch.translate`).
The fuel is the pattern length; each step consumes at least one character
(`classSplit` always returns a strict suffix), so the fuel never runs out. -/
def parseGlobAux : Nat → List Char → List GlobTok
  | 0, _ => []
  | _ + 1, [] => []
  | fuel + 1, '*' :: rest => .star :: parseGlobAux fuel rest
  | fuel + 1, '?' :: rest => .anyOne :: parseGlobAux fuel rest
  | fuel + 1, '[' :: rest =>
    match classSplit rest with
    | some (neg, content, rest2) =>
      .cls neg (parseItems content) :: parseGlobAux fuel rest2
    | none => .lit '[' :: parseGlobAux fuel rest
  | fuel + 1, c :: rest => .lit c :: parseGlobAux fuel rest

def parseGlob (l : List Char) : List GlobTok := parseGlobAux l.length l

/-- Does one class item match a character? (regex `[a-b]` ranges are by
code point). -/
def matchGlobItem : GlobItem → Char → Bool
  | .single a, c => a == c
  | .range a b, c => a.val ≤ c.val && c.val ≤ b.val

/-- Match compiled glob tokens against a character list (with backtracking
for `*`).  The fuel only needs to exceed `ts.length + s.length`, since every
recursive call shrinks that sum. -/
def matchToksAux : Nat → List GlobTok → List Char → Bool
  | 0, _, _ => false
  | _ + 1, [], [] => true
  | _ + 1, [], _ :: _ => false
  | fuel + 1, .star :: ts, [] => matchToksAux fuel ts []
  | fuel + 1, .star :: ts, c :: ss =>
    matchToksAux fuel ts (c :: ss) || matchToksAux fuel (.star :: ts) ss
  | fuel + 1, .anyOne :: ts, _ :: ss => matchToksAux fuel ts ss
  | _ + 1, .anyOne :: _, [] => false
  | fuel + 1, .lit a :: ts, c :: ss => a == c && matchToksAux fuel ts ss
  | _ + 1, .lit _ :: _, [] => false
  | fuel + 1, .cls neg items :: ts, c :: ss =>
    (neg != items.any (fun it => matchGlobItem it c)) && matchToksAux fuel ts ss
  | _ + 1, .cls _ _ :: _, [] => false

def matchToks (ts : List GlobTok) (s : List Char) : Bool :=
  matchToksAux (ts.length + s.length + 1) ts s

/-- CPython `fnmatch.fnmatch(name, pattern)` on POSIX. -/
def fnmatch (name pattern : String) : Bool :=
  matchToks (parseGlob pattern.toList) name.toList

/-! ## `qa_config.py` — the configuration filter -/

/-- The `{skip: [...]}` value of one `notebooks:` entry. -/
structure NotebookSettings where
  skip : List String
deriving DecidableEq

/-- The parsed YAML configuration: `disabled_checks`, `skip_notebooks`, and
the per-notebook `notebooks` mapping (insertion-ordered, as a Python dict). -/
structure Config where
  disabled_checks : List String
  skip_notebooks : List String
  notebooks : List (String × NotebookSettings)
deriving DecidableEq

/-- `is_check_disabled` (qa_config.py): membership in `disabled_checks`. -/
def is_check_disabled (config : Config) (check_id : String) : Bool :=
  config.disabled_checks.contains check_id

/-- The `for pattern in skip_patterns: if fnmatch(...): return True` loop. -/
def skipNotebookLoop (notebook : String) : List String → Bool
  | [] => false
  | pattern :: rest =>
    if fnmatch notebook pattern then true else skipNotebookLoop notebook rest

/-- `is_notebook_skipped` (qa_config.py). -/
def is_notebook_skipped (config : Config) (notebook : String) : Bool :=
  skipNotebookLoop notebook config.skip_notebooks

/-- The `for pattern, settings in per_notebook.items(): ...` loop of
`is_check_skipped_for_notebook`: on a matching pattern, return `True` only
when its skip list contains the check; otherwise keep scanning. -/
def skipCheckLoop (check_id notebook : String) :
    List (String × NotebookSettings) → Bool
  | [] => false
  | (pattern, settings) :: rest =>
    if fnmatch notebook pattern then
      if settings.skip.contains check_id then true
      else skipCheckLoop check_id notebook rest
    else skipCheckLoop check_id notebook rest

/-- `is_check_skipped_for_notebook` (qa_config.py). -/
def is_check_skipped_for_notebook (config : Config) (check_id notebook : String) :
    Bool :=
  skipCheckLoop check_id notebook config.notebooks

/-- `filter_notebooks` (qa_config.py): the `for notebook in notebooks` loop
with its two `continue` guards. -/
def filter_notebooks (config : Config) (check_id : String) :
    List String → List String
  | [] => []
  | notebook :: rest =>
    if is_notebook_skipped config notebook then
      filter_notebooks config check_id rest
    else if is_check_skipped_for_notebook config check_id notebook then
      filter_notebooks config check_id rest
    else
      notebook :: filter_notebooks config check_id rest

/-- `get_filtered_notebooks_for_check` (qa_config.py). -/
def get_filtered_notebooks_for_check (config : Config) (check_id : String)
    (notebooks : List String) : Bool × List String :=
  if is_check_disabled config check_id then (true, [])
  else (false, filter_notebooks config check_id notebooks)

/-! ### Theorems about the configuration filter -/

theorem skipNotebookLoop_any (notebook : String) (patterns : List String) :
    skipNotebookLoop notebook patterns = patterns.any (fun p => fnmatch notebook p) := by
  induction patterns with
  | nil => rfl
  | cons p rest ih =>
    simp only [skipNotebookLoop, List.any_cons]
    by_cases h : fnmatch notebook p = true <;> simp [h, ih]

theorem skipCheckLoop_any (check_id notebook : String)
    (entries : List (String × NotebookSettings)) :
    skipCheckLoop check_id notebook entries
      = entries.any (fun e => fnmatch notebook e.1 && e.2.skip.contains check_id) := by
  induction entries with
  | nil => rfl
  | cons e rest ih =>
    obtain ⟨pattern, settings⟩ := e
    simp only [skipCheckLoop, List.any_cons]
    by_cases h1 : fnmatch notebook pattern = true
    · by_cases h2 : settings.skip.contains check_id = true <;> simp [h1, h2, ih]
    · simp only [Bool.not_eq_true] at h1
      simp [h1, ih]

/-- C1.  `filter_notebooks` is exactly `List.filter` of the two guards over
the candidate list: it returns the subsequence (order preserved, duplicates
passed through) of paths that neither match a `skip_notebooks` glob nor are
skipped for this check by a per-notebook entry; in particular a path matching
a `skip_notebooks` glob is excluded regardless of the per-notebook settings. -/
theorem filter_notebooks_spec (config : Config) (check_id : String)
    (notebooks : List String) :
    filter_notebooks config check_id notebooks
        = notebooks.filter (fun nb =>
            !is_notebook_skipped config nb
              && !is_check_skipped_for_notebook config check_id nb)
      ∧ (filter_notebooks config check_id notebooks).Sublist notebooks
      ∧ (∀ nb, is_notebook_skipped config nb = true →
          nb ∉ filter_notebooks config check_id notebooks) := by
  have hfilter : filter_notebooks config check_id notebooks
      = notebooks.filter (fun nb =>
          !is_notebook_skipped config nb
            && !is_check_skipped_for_notebook config check_id nb) := by
    induction notebooks with
    | nil => rfl
    | cons nb rest ih =>
      simp only [filter_notebooks, List.filter_cons]
      by_cases h1 : is_notebook_skipped config nb = true
      · simp [h1, ih]
      · simp only [Bool.not_eq_true] at h1
        by_cases h2 : is_check_skipped_for_notebook config check_id nb = true
        · simp [h1, h2, ih]
        · simp only [Bool.not_eq_true] at h2
          simp [h1, h2, ih]
  refine ⟨hfilter, ?_, ?_⟩
  · rw [hfilter]; exact List.filter_sublist notebooks
  · intro nb hskip hmem
    rw [hfilter] at hmem
    have := List.of_mem_filter hmem
    simp [hskip] at this

/-- Example configuration used by the C1 witness. -/
def cfgW1 : Config :=
  { disabled_checks := []
    skip_notebooks := ["*.draft.ipynb"]
    notebooks := [("a*", { skip := ["doi"] })] }

/-- Witness for C1 at a concrete configuration and candidate list: the
skipped path is excluded, and the filter equation holds with duplicates
preserved. -/
theorem filter_notebooks_spec_witness :
    is_notebook_skipped cfgW1 "x.draft.ipynb" = true ∧
    "x.draft.ipynb" ∉ filter_notebooks cfgW1 "doi" ["x.draft.ipynb", "a.ipynb", "b.ipynb", "b.ipynb"] ∧
    filter_notebooks cfgW1 "doi" ["x.draft.ipynb", "a.ipynb", "b.ipynb", "b.ipynb"] = ["b.ipynb", "b.ipynb"] :=
  ⟨by decide,
   (filter_notebooks_spec cfgW1 "doi" ["x.draft.ipynb", "a.ipynb", "b.ipynb", "b.ipynb"]).2.2
     "x.draft.ipynb" (by decide),
   by decide⟩

/-- The first-matching-pattern semantics asserted by the specification for
`is_check_skipped_for_notebook` (stated for comparison): the outcome would be
decided by the skip list of the first per-notebook pattern matching the path. -/
def firstMatchSkipDecision (config : Config) (check_id notebook : String) : Bool :=
  match config.notebooks.find? (fun e => fnmatch notebook e.1) with
  | some e => e.2.skip.contains check_id
  | none => false

/-- Configuration refuting the first-match semantics: the first matching
per-notebook pattern has an empty skip list, a later matching pattern skips
`doi`. -/
def cfgCex2 : Config :=
  { disabled_checks := []
    skip_notebooks := []
    notebooks := [("a*", { skip := [] }), ("ab*", { skip := ["doi"] })] }

/-- C2 counterexample.  On `cfgCex2` the first per-notebook pattern matching
`ab.ipynb` is `a*`, whose skip list is empty, so under first-matching-pattern
semantics the check would not be skipped; the code nevertheless returns
`True` because the later matching pattern `ab*` lists `doi`. -/
theorem is_check_skipped_first_match_cex :
    fnmatch "ab.ipynb" "a*" = true ∧
    (cfgCex2.notebooks.find? (fun e => fnmatch "ab.ipynb" e.1)
        = some ("a*", { skip := [] })) ∧
    firstMatchSkipDecision cfgCex2 "doi" "ab.ipynb" = false ∧
    is_check_skipped_for_notebook cfgCex2 "doi" "ab.ipynb" = true := by
  decide

/-- C2 amended.  `is_check_skipped_for_notebook` uses shell-style glob
matching with any-match semantics: it returns true iff some per-notebook
entry's pattern matches the path and its skip list contains the check
identifier; a matching pattern whose skip list lacks the check does not
stop the scan. -/
theorem is_check_skipped_any_match (config : Config) (check_id notebook : String) :
    is_check_skipped_for_notebook config check_id notebook = true ↔
      ∃ e ∈ config.notebooks,
        fnmatch notebook e.1 = true ∧ e.2.skip.contains check_id = true := by
  unfold is_check_skipped_for_notebook
  rw [skipCheckLoop_any]
  simp [List.any_eq_true]

/-- Witness for C2's amended theorem at the concrete configuration. -/
theorem is_check_skipped_any_match_witness :
    is_check_skipped_for_notebook cfgCex2 "doi" "ab.ipynb" = true :=
  (is_check_skipped_any_match cfgCex2 "doi" "ab.ipynb").mpr
    ⟨("ab*", { skip := ["doi"] }), by decide, by decide, by decide⟩

/-! ## The notebook data model

A parsed notebook as the checkers see it (`json.load` output restricted to
the fields the checkers read).  A cell `source` (and an output `text` / rich
`data` payload) is either a single string or a list of strings that is
concatenated with no separator, exactly as `extract_cell_source` does. -/

inductive SourceVal where
  | str (s : String)
  | strs (l : List String)
deriving DecidableEq

/-- The `''.join(x) if isinstance(x, list) else str(x)` idiom. -/
def joinSource : SourceVal → String
  | .str s => s
  | .strs l => String.join l

/-- One entry of a code cell's `outputs` list.  `data` maps MIME types to
payloads; `metadata` is the output metadata (string-valued fields only, which
is all the checkers inspect). -/
structure Output where
  output_type : String
  text : Option SourceVal
  data : List (String × SourceVal)
  metadata : List (String × String)
deriving DecidableEq

structure Cell where
  cell_type : String
  source : SourceVal
  outputs : List Output
deriving DecidableEq

/-- A notebook: cells plus notebook-level metadata (stringified values, as
`str(metadata[field])` produces). -/
structure Notebook where
  cells : List Cell
  metadata : List (String × String)
deriving DecidableEq

/-- `extract_cell_source` (utils.py / doi_checker.py / figure_checker.py). -/
def extract_cell_source (cell : Cell) : String :=
  joinSource cell.source

/-- Python dict `.get` on a string-valued association list. -/
def lookupStr (l : List (String × String)) (k : String) : Option String :=
  (l.find? (fun kv => kv.1 == k)).map (fun kv => kv.2)

/-! ## `doi_checker.py` -/

/-- The suffix character class `[-._;()/:A-Za-z0-9]` of the DOI patterns. -/
def isDoiSuffixChar (c : Char) : Bool :=
  c.isAlphanum || c == '-' || c == '.' || c == '_' || c == ';'
    || c == '(' || c == ')' || c == '/' || c == ':'

/-- Head-matcher for the DOI core `10\.\d{4,9}/[-._;()/:A-Za-z0-9]+`
(greedy, which is deterministic here: the `/` can only follow the full digit
run, and nothing follows the suffix).  Returns the matched text and the
remainder. -/
def matchDoiCore : List Char → Option (List Char × List Char)
  | '1' :: '0' :: '.' :: rest =>
    let ds := rest.takeWhile Char.isDigit
    let r2 := rest.dropWhile Char.isDigit
    if 4 ≤ ds.length && ds.length ≤ 9 then
      match r2 with
      | '/' :: r3 =>
        let suf := r3.takeWhile isDoiSuffixChar
        if suf.isEmpty then none
        else some ('1' :: '0' :: '.' :: (ds ++ '/' :: suf), r3.dropWhile isDoiSuffixChar)
      | _ => none
    else none
  | _ => none

/-- Head-matcher for `doi\.org/(10\.\d{4,9}/[-._;()/:A-Za-z0-9]+)` with
`re.IGNORECASE`; the emitted group is the DOI core. -/
def matchDoiOrg (l : List Char) : Option (List Char × List Char) :=
  match stripCi "doi.org/".toList l with
  | some r => matchDoiCore r
  | none => none

/-- Head-matcher for `https?://(?:dx\.)?doi\.org/(10\.\d{4,9}/...)` with
`re.IGNORECASE`.  The optional parts backtrack deterministically: after `s?`
the literal `:` can never match an `s`, and when `dx.` was consumed the
no-`dx.` alternative would have to read `doi` at `dx.`, which fails. -/
def matchDoiUrl (l : List Char) : Option (List Char × List Char) :=
  match stripCi "http".toList l with
  | none => none
  | some r1 =>
    let r2 := match stripCi "s".toList r1 with
      | some r => r
      | none => r1
    match stripCi "://".toList r2 with
    | none => none
    | some r3 =>
      match stripCi "dx.".toList r3 with
      | some r4 =>
        match stripCi "doi.org/".toList r4 with
        | some r5 => matchDoiCore r5
        | none =>
          match stripCi "doi.org/".toList r3 with
          | some r5 => matchDoiCore r5
          | none => none
      | none =>
        match stripCi "doi.org/".toList r3 with
        | some r5 => matchDoiCore r5
        | none => none

/-- `extract_dois_from_text` (doi_checker.py): the union of `re.findall` of
the three `DOI_PATTERNS` over the text, as a set (`dedup`). -/
def extract_dois_from_text (s : String) : List String :=
  (findAllStr matchDoiCore s ++ findAllStr matchDoiOrg s ++ findAllStr matchDoiUrl s).dedup

/-- `VALID_DOI_PATTERN.match(doi)`: `^10\.\d{4,9}/[-._;()/:A-Za-z0-9]+$`.
Python's `$` also matches just before one trailing newline. -/
def valid_doi_format (s : String) : Bool :=
  match matchDoiCore s.toList with
  | some (_, rest) => rest.isEmpty || rest == ['\n']
  | none => false

/-- The metadata field names of `check_doi` step 1. -/
def metadata_fields : List String :=
  ["references", "citation", "doi", "reference", "Attributes"]

/-- The DOIs one output contributes to `dataset_dois` in `check_doi` step 1:
texts and rich-data payloads are scanned only when some metadata field name
occurs in them (case-sensitive substring test, as Python's `in`). -/
def outputDatasetDois (o : Output) : List String :=
  (match o.text with
   | some tv =>
     if metadata_fields.any (fun f => strContains (joinSource tv) f) then
       extract_dois_from_text (joinSource tv)
     else []
   | none => []) ++
  (o.data.map (fun kv =>
     if metadata_fields.any (fun f => strContains (joinSource kv.2) f) then
       extract_dois_from_text (joinSource kv.2)
     else [])).join

/-- Step 1 contribution of one cell (code cells only). -/
def cellDatasetDois (c : Cell) : List String :=
  if c.cell_type == "code" then (c.outputs.map outputDatasetDois).join else []

/-- `dataset_dois` before the format filter. -/
def datasetDoisRaw (nb : Notebook) : List String :=
  (nb.cells.map cellDatasetDois).join

/-- `dataset_dois` after `{doi for doi in dataset_dois if VALID_DOI_PATTERN.match(doi)}`. -/
def datasetDoisValid (nb : Notebook) : List String :=
  ((datasetDoisRaw nb).dedup).filter valid_doi_format

/-- `cited_dois` of step 2, before the format filter. -/
def citedDoisRaw (nb : Notebook) : List String :=
  (nb.cells.map (fun c =>
    if c.cell_type == "markdown" then extract_dois_from_text (extract_cell_source c)
    else [])).join

/-- `cited_dois` after the format filter. -/
def citedDoisValid (nb : Notebook) : List String :=
  ((citedDoisRaw nb).dedup).filter valid_doi_format

/-- `check_doi` (doi_checker.py).  The network call `validate_doi_resolves`
is the explicit `resolver` argument returning its tri-state verdict
(`some true` = resolves, `some false` = 404, `none` = network error).
Reading the notebook file is out of scope (the parsed notebook is given). -/
def check_doi (resolver : String → Option Bool) (nb : Notebook) : String :=
  let dataset_dois := datasetDoisValid nb
  if dataset_dois.isEmpty then "skipped"
  else
    let cited_dois := citedDoisValid nb
    let failedResolve := dataset_dois.any (fun d => resolver d == some false)
    let uncited := (dataset_dois.map (fun d => pyLower d)).filter
        (fun d => !((cited_dois.map (fun c => pyLower c)).contains d))
    if failedResolve || !uncited.isEmpty then "failure" else "success"

/-! ### Theorems about `check_doi` -/

/-- Does a text contain a metadata field name co-occurring with a
validly-formatted DOI token?  (The step-1 trigger of `check_doi`.) -/
def hasDatasetDoiText (s : String) : Bool :=
  metadata_fields.any (fun f => strContains s f)
    && !((extract_dois_from_text s).filter valid_doi_format).isEmpty

/-- No component of this output (its `text`, or any of its `data` payloads)
has a metadata field name co-occurring with a valid DOI token. -/
def outputFreeOfDatasetDoi (o : Output) : Bool :=
  (o.text.all (fun tv => !hasDatasetDoiText (joinSource tv)))
    && (o.data.all (fun kv => !hasDatasetDoiText (joinSource kv.2)))

theorem valid_false_of_hasDatasetDoiText_false {s : String}
    (h : hasDatasetDoiText s = false) {d : String}
    (hd : d ∈ (if metadata_fields.any (fun f => strContains s f) then
        extract_dois_from_text s else [])) :
    valid_doi_format d = false := by
  by_cases hf : metadata_fields.any (fun f => strContains s f) = true
  · rw [if_pos hf] at hd
    unfold hasDatasetDoiText at h
    rw [hf, Bool.true_and, Bool.not_eq_false', List.isEmpty_iff] at h
    have := List.filter_eq_nil_iff.mp h d hd
    simpa using this
  · rw [if_neg hf] at hd
    exact absurd hd (List.not_mem_nil d)

/-- C3.  If no code-cell output has a metadata field name (`references`,
`citation`, `doi`, `reference`, `Attributes`) co-occurring with a validly
formatted DOI token, `check_doi` returns `"skipped"` — regardless of the
markdown cells' content (which only feeds `cited_dois`). -/
theorem check_doi_skipped (resolver : String → Option Bool) (nb : Notebook)
    (h : ∀ cell ∈ nb.cells, cell.cell_type = "code" →
        ∀ o ∈ cell.outputs, outputFreeOfDatasetDoi o = true) :
    check_doi resolver nb = "skipped" := by
  have hempty : datasetDoisValid nb = [] := by
    unfold datasetDoisValid
    rw [List.filter_eq_nil_iff]
    intro d hd
    rw [List.mem_dedup] at hd
    unfold datasetDoisRaw at hd
    rw [List.mem_join] at hd
    obtain ⟨l, hl, hdl⟩ := hd
    rw [List.mem_map] at hl
    obtain ⟨cell, hcell, rfl⟩ := hl
    unfold cellDatasetDois at hdl
    by_cases hct : cell.cell_type = "code"
    · rw [if_pos (by simp [hct])] at hdl
      rw [List.mem_join] at hdl
      obtain ⟨l2, hl2, hdl2⟩ := hdl
      rw [List.mem_map] at hl2
      obtain ⟨o, ho, rfl⟩ := hl2
      have hfree := h cell hcell hct o ho
      unfold outputFreeOfDatasetDoi at hfree
      rw [Bool.and_eq_true] at hfree
      obtain ⟨hfreeText, hfreeData⟩ := hfree
      unfold outputDatasetDois at hdl2
      rw [List.mem_append] at hdl2
      rcases hdl2 with hdt | hdd
      · cases htext : o.text with
        | none => rw [htext] at hdt; exact absurd hdt (List.not_mem_nil d)
        | some tv =>
          rw [htext] at hdt hfreeText
          simp only [Option.all_some, Bool.not_eq_true'] at hfreeText
          simp only [valid_false_of_hasDatasetDoiText_false hfreeText hdt,
            Bool.false_eq_true, not_false_eq_true]
      · rw [List.mem_join] at hdd
        obtain ⟨l3, hl3, hdl3⟩ := hdd
        rw [List.mem_map] at hl3
        obtain ⟨kv, hkv, rfl⟩ := hl3
        have hfreekv : hasDatasetDoiText (joinSource kv.2) = false := by
          have := List.all_eq_true.mp hfreeData kv hkv
          simpa using this
        simp only [valid_false_of_hasDatasetDoiText_false hfreekv hdl3,
          Bool.false_eq_true, not_false_eq_true]
    · rw [if_neg (by simp [hct])] at hdl
      exact absurd hdl (List.not_mem_nil d)
  simp [check_doi, hempty]

/-- The notebook of the C3 witness: a code-cell output mentions
`references` but carries no DOI-shaped token, while a markdown cell does
contain a DOI. -/
def nbW3 : Notebook :=
  { cells :=
      [ { cell_type := "code", source := .strs [],
          outputs := [ { output_type := "execute_result",
                         text := some (.str "references: see the paper"),
                         data := [], metadata := [] } ] },
        { cell_type := "markdown",
          source := .str "Cite https://doi.org/10.1234/abcd", outputs := [] } ],
    metadata := [] }

/-- Witness for C3 at a concrete notebook. -/
theorem check_doi_skipped_witness :
    check_doi (fun _ => some true) nbW3 = "skipped" :=
  check_doi_skipped (fun _ => some true) nbW3 (by decide)

/-- C4.  With at least one dataset DOI, if every dataset DOI's resolution
attempt is indeterminate (network error, `none`) and every dataset DOI is
cited case-insensitively in the markdown cells, `check_doi` returns
`"success"`: an indeterminate resolution never causes `"failure"`. -/
theorem check_doi_indeterminate_success (resolver : String → Option Bool)
    (nb : Notebook)
    (hne : datasetDoisValid nb ≠ [])
    (hres : ∀ d ∈ datasetDoisValid nb, resolver d = none)
    (hcit : ∀ d ∈ datasetDoisValid nb,
        ((citedDoisValid nb).map (fun c => pyLower c)).contains (pyLower d) = true) :
    check_doi resolver nb = "success" := by
  have h1 : (datasetDoisValid nb).isEmpty = false := by
    rw [List.isEmpty_eq_false]; exact hne
  have h2 : (datasetDoisValid nb).any (fun d => resolver d == some false) = false := by
    rw [List.any_eq_false]
    intro d hd
    rw [hres d hd]
    simp
  have h3 : ((datasetDoisValid nb).map (fun d => pyLower d)).filter
      (fun d => !(((citedDoisValid nb).map (fun c => pyLower c)).contains d)) = [] := by
    rw [List.filter_eq_nil_iff]
    intro x hx
    rw [List.mem_map] at hx
    obtain ⟨d, hd, rfl⟩ := hx
    rw [hcit d hd]
    simp
  simp only [check_doi, h1, h2, h3]
  simp

/-- The notebook of the C4/C5 witnesses: a code-cell output carries a dataset
DOI (`citation` field present), and a markdown cell cites the same DOI in a
different letter case. -/
def nbW4 : Notebook :=
  { cells :=
      [ { cell_type := "code", source := .strs [],
          outputs := [ { output_type := "execute_result",
                         text := some (.strs ["Dataset citation: ",
                                              "https://doi.org/10.1234/ABCD"]),
                         data := [], metadata := [] } ] },
        { cell_type := "markdown",
          source := .str "Data from https://dx.doi.org/10.1234/abcd",
          outputs := [] } ],
    metadata := [] }

/-- Witness for C4: all resolutions indeterminate, DOI cited
case-insensitively, result `"success"`. -/
theorem check_doi_indeterminate_success_witness :
    check_doi (fun _ => none) nbW4 = "success" :=
  check_doi_indeterminate_success (fun _ => none) nbW4
    (by decide) (by decide) (by decide)

/-- C5.  If some dataset DOI's resolution attempt returns the
does-not-resolve verdict (404, `some false`), `check_doi` returns
`"failure"` — no citation in the markdown cells can prevent this. -/
theorem check_doi_unresolved_failure (resolver : String → Option Bool)
    (nb : Notebook) (d : String)
    (hd : d ∈ datasetDoisValid nb) (hres : resolver d = some false) :
    check_doi resolver nb = "failure" := by
  have h1 : (datasetDoisValid nb).isEmpty = false := by
    rw [List.isEmpty_eq_false]
    intro hnil
    rw [hnil] at hd
    exact absurd hd (List.not_mem_nil d)
  have h2 : (datasetDoisValid nb).any (fun x => resolver x == some false) = true := by
    rw [List.any_eq_true]
    exact ⟨d, hd, by rw [hres]; rfl⟩
  simp [check_doi, h1, h2]

/-- Witness for C5: the dataset DOI of `nbW4` is cited in markdown, yet a
404 verdict makes the result `"failure"`. -/
theorem check_doi_unresolved_failure_witness :
    check_doi (fun _ => some false) nbW4 = "failure" :=
  check_doi_unresolved_failure (fun _ => some false) nbW4 "10.1234/ABCD"
    (by decide) rfl

/-! ## `figure_checker.py` -/

/-- Head-matcher for `source:?\s+\S+` (case-insensitive).  The `:?` and the
maximal-whitespace choice are deterministic: when they fail, no shorter
alternative can place the required whitespace or non-space character. -/
def matchSourceColon (l : List Char) : Bool :=
  match stripCi "source".toList l with
  | none => false
  | some r1 =>
    let r2 := match r1 with | ':' :: t => t | _ => r1
    if (r2.takeWhile isPySpace).isEmpty then false
    else !(r2.dropWhile isPySpace).isEmpty

/-- Head-matcher for `data\s+from:?\s*` (case-insensitive). -/
def matchDataFrom (l : List Char) : Bool :=
  match stripCi "data".toList l with
  | none => false
  | some r1 =>
    if (r1.takeWhile isPySpace).isEmpty then false
    else (stripCi "from".toList (r1.dropWhile isPySpace)).isSome

/-- Head-matcher for `doi:?\s*10\.\d+` (case-insensitive). -/
def matchDoiNum (l : List Char) : Bool :=
  match stripCi "doi".toList l with
  | none => false
  | some r1 =>
    let r2 := match r1 with | ':' :: t => t | _ => r1
    match stripCi "10.".toList (r2.dropWhile isPySpace) with
    | none => false
    | some r3 =>
      match r3 with
      | c :: _ => c.isDigit
      | [] => false

/-- Head-matcher for `https?://\S+` (case-insensitive). -/
def matchHttpUrl (l : List Char) : Bool :=
  match stripCi "http".toList l with
  | none => false
  | some r1 =>
    let r2 := match stripCi "s".toList r1 with | some r => r | none => r1
    match stripCi "://".toList r2 with
    | none => false
    | some r3 =>
      match r3 with
      | c :: _ => !isPySpace c
      | [] => false

/-- Head-matcher for `kw:?\s*` (case-insensitive): the optional parts can
match the empty string, so only the keyword itself is required. -/
def matchKeywordOnly (kw : String) (l : List Char) : Bool :=
  (stripCi kw.toList l).isSome

/-- The `for pattern in source_patterns: if re.search(...)` loop of
`check_figures` over one markdown source. -/
def source_patterns_match (s : String) : Bool :=
  searchBool matchSourceColon s.toList
    || searchBool matchDataFrom s.toList
    || searchBool matchDoiNum s.toList
    || searchBool matchHttpUrl s.toList
    || searchBool (matchKeywordOnly "credit") s.toList
    || searchBool (matchKeywordOnly "attribution") s.toList
    || searchBool (matchKeywordOnly "reference") s.toList
    || searchBool (matchKeywordOnly "dataset") s.toList

/-- Is this output a figure: `output_type` in `['display_data',
'execute_result']` and an image MIME key in its `data` dict? -/
def isImageOutput (o : Output) : Bool :=
  (o.output_type == "display_data" || o.output_type == "execute_result")
    && (o.data.any (fun kv =>
        kv.1 == "image/png" || kv.1 == "image/jpeg" || kv.1 == "image/jpg"))

/-- The `for offset in [-2, -1, 1, 2]` window scan of `check_figures`:
some in-bounds markdown cell in the window matches a source pattern. -/
def windowHasSource (cells : List Cell) (cell_idx : Nat) : Bool :=
  [(-2 : Int), -1, 1, 2].any (fun off =>
    let j : Int := (cell_idx : Int) + off
    decide (0 ≤ j) &&
      (match cells.get? j.toNat with
       | some c =>
         c.cell_type == "markdown" && source_patterns_match (extract_cell_source c)
       | none => false))

/-- The issues a single cell contributes in `check_figures`: one issue per
figure output without source attribution in the window. -/
def cellFigureIssues (cells : List Cell) (idx : Nat) (cell : Cell) : List String :=
  if cell.cell_type == "code" then
    (cell.outputs.filter isImageOutput).filterMap (fun _ =>
      if windowHasSource cells idx then none
      else some (s!"Cell {idx}: Figure missing source attribution"))
  else []

/-- All issues `check_figures` accumulates over a notebook. -/
def figureIssues (nb : Notebook) : List String :=
  (nb.cells.enum.map (fun p => cellFigureIssues nb.cells p.1 p.2)).join

/-- `check_figures` (figure_checker.py); reading the file is out of scope. -/
def check_figures (nb : Notebook) : String :=
  if (figureIssues nb).isEmpty then "success" else "failure"

/-! ### Theorem about `check_figures` -/

/-- C6.  A code cell with a figure output contributes no issue exactly when
some markdown cell at relative offset -2, -1, +1 or +2 matches a
source-attribution pattern (`windowHasSource`); with no match in that 4-cell
window it contributes an issue; and the notebook's result is `"failure"` iff
some cell contributed an issue. -/
theorem check_figures_window (nb : Notebook) (idx : Nat) (cell : Cell)
    (hget : nb.cells.get? idx = some cell)
    (hcode : cell.cell_type = "code")
    (himg : cell.outputs.any isImageOutput = true) :
    (windowHasSource nb.cells idx = true →
      cellFigureIssues nb.cells idx cell = []) ∧
    (windowHasSource nb.cells idx = false →
      cellFigureIssues nb.cells idx cell ≠ []) ∧
    (check_figures nb = "failure" ↔
      ∃ i c, nb.cells.get? i = some c ∧ cellFigureIssues nb.cells i c ≠ []) := by
  refine ⟨?_, ?_, ?_⟩
  · intro hw
    simp [cellFigureIssues, hcode, hw]
  · intro hw
    obtain ⟨o, ho, himgo⟩ := List.any_eq_true.mp himg
    have hofil : o ∈ cell.outputs.filter isImageOutput :=
      List.mem_filter.mpr ⟨ho, himgo⟩
    have hmem : s!"Cell {idx}: Figure missing source attribution"
        ∈ cellFigureIssues nb.cells idx cell := by
      unfold cellFigureIssues
      rw [if_pos (by simp [hcode])]
      exact List.mem_filterMap.mpr ⟨o, hofil, by simp [hw]⟩
    exact List.ne_nil_of_mem hmem
  · have hiff : figureIssues nb ≠ [] ↔
        ∃ i c, nb.cells.get? i = some c ∧ cellFigureIssues nb.cells i c ≠ [] := by
      unfold figureIssues
      rw [Ne, List.join_eq_nil_iff]
      constructor
      · intro h
        by_contra hno
        push_neg at hno
        apply h
        intro l hl
        rw [List.mem_map] at hl
        obtain ⟨p, hp, rfl⟩ := hl
        have hpget : nb.cells.get? p.1 = some p.2 := by
          have := List.mem_enum_iff_get?.mp hp
          simpa using this
        exact hno p.1 p.2 hpget
      · intro ⟨i, c, hic, hne⟩ hall
        apply hne
        apply hall
        rw [List.mem_map]
        refine ⟨(i, c), ?_, rfl⟩
        exact List.mem_enum_iff_get?.mpr (by simpa using hic)
    constructor
    · intro hfail
      rw [← hiff]
      intro hnil
      rw [check_figures, hnil] at hfail
      simp at hfail
    · intro hex
      have := hiff.mpr hex
      rw [check_figures, if_neg (by simpa [List.isEmpty_iff] using this)]

/-- The notebook of the C6 witness: a `Source:` markdown line exactly two
cells before a code cell with an image output. -/
def figCell : Cell :=
  { cell_type := "code", source := .strs [],
    outputs := [ { output_type := "display_data", text := none,
                   data := [("image/png", .str "iVBORw0KGgo=")],
                   metadata := [] } ] }

def nbW6 : Notebook :=
  { cells :=
      [ { cell_type := "markdown",
          source := .str "Source: NASA Earth Observatory", outputs := [] },
        { cell_type := "code", source := .str "plot()", outputs := [] },
        figCell ],
    metadata := [] }

/-- Witness for C6: the attribution two cells prior is found (so the figure
cell contributes no issue and the check succeeds), and the notebook's
failure condition is the issue-existence condition. -/
theorem check_figures_window_witness :
    windowHasSource nbW6.cells 2 = true ∧
    check_figures nbW6 = "success" ∧
    ((windowHasSource nbW6.cells 2 = true →
      cellFigureIssues nbW6.cells 2 figCell = []) ∧
    (windowHasSource nbW6.cells 2 = false →
      cellFigureIssues nbW6.cells 2 figCell ≠ []) ∧
    (check_figures nbW6 = "failure" ↔
      ∃ i c, nbW6.cells.get? i = some c ∧ cellFigureIssues nbW6.cells i c ≠ [])) :=
  ⟨by decide, by decide,
   check_figures_window nbW6 2 figCell (by decide) (by decide) (by decide)⟩

/-! ## `metadata_checker.py` -/

/-- Head-matcher for the date group `(\d{4}-\d{2}-\d{2})`: the exact
quantifiers admit no backtracking, so the shape is fixed. -/
def matchDate : List Char → Option (String × List Char)
  | a :: b :: c :: d :: '-' :: e :: f :: '-' :: g :: h :: rest =>
    if a.isDigit && b.isDigit && c.isDigit && d.isDigit
        && e.isDigit && f.isDigit && g.isDigit && h.isDigit then
      some (String.mk [a, b, c, d, '-', e, f, '-', g, h], rest)
    else none
  | _ => none

/-- `:?\s*(\d{4}-\d{2}-\d{2})`: optional colon, any whitespace, the date.
Deterministic: dropping the colon or whitespace only moves a non-digit
under `\d`. -/
def matchColonWsDate (l : List Char) : Option String :=
  let r1 := match l with | ':' :: t => t | _ => l
  (matchDate (r1.dropWhile isPySpace)).map (fun p => p.1)

/-- Head-matcher for `kw:?\s*(\d{4}-\d{2}-\d{2})` (case-insensitive). -/
def kwColonWsDate (kw : String) (l : List Char) : Option String :=
  match stripCi kw.toList l with
  | none => none
  | some r => matchColonWsDate r

/-- Head-matcher for `last\s+updated:?\s*(\d{4}-\d{2}-\d{2})`. -/
def matchLastUpdatedDate (l : List Char) : Option String :=
  match stripCi "last".toList l with
  | none => none
  | some r1 =>
    if (r1.takeWhile isPySpace).isEmpty then none
    else
      match stripCi "updated".toList (r1.dropWhile isPySpace) with
      | none => none
      | some r2 => matchColonWsDate r2

/-- Head-matcher for `version:?\s*[\d.]+\s*\((\d{4}-\d{2}-\d{2})\)`.
Only the maximal `[\d.]+` run can succeed (a shorter one would put a digit
or dot where `\s*\(` needs to start), so this is deterministic too. -/
def matchVersionDate (l : List Char) : Option String :=
  match stripCi "version".toList l with
  | none => none
  | some r1 =>
    let r2 := match r1 with | ':' :: t => t | _ => r1
    let r3 := r2.dropWhile isPySpace
    let isVerChar := fun c => Char.isDigit c || c == '.'
    if (r3.takeWhile isVerChar).isEmpty then none
    else
      match (r3.dropWhile isVerChar).dropWhile isPySpace with
      | '(' :: r4 =>
        match matchDate r4 with
        | some (d, ')' :: _) => some d
        | _ => none
      | _ => none

/-- The `date_patterns` list of `check_metadata`, in order. -/
def date_pattern_list : List (List Char → Option String) :=
  [ matchLastUpdatedDate
  , matchVersionDate
  , kwColonWsDate "modified"
  , kwColonWsDate "date"
  , kwColonWsDate "updated" ]

/-- The `for pattern in date_patterns: re.search(...)` loop over one text:
first pattern (in list order) with a match anywhere wins; the extracted
group is the leftmost match of that pattern. -/
def searchDatePatterns (s : String) : Option String :=
  date_pattern_list.findSome? (fun m => searchFirstSome m s.toList)

/-- The notebook-metadata fields probed by `check_metadata`, in order. -/
def metadataDateFields : List String :=
  ["date", "modified", "version", "last_updated"]

/-- The metadata-field loop of `check_metadata`: the first probed field whose
(stringified) value matches some date pattern wins; a present field with no
match falls through to the next field. -/
def findDateInMetadata (meta : List (String × String)) :
    Option (String × String) :=
  metadataDateFields.findSome? (fun f =>
    match lookupStr meta f with
    | some v => (searchDatePatterns v).map (fun d => (d, "metadata." ++ f))
    | none => none)

/-- The markdown-cell loop of `check_metadata`, with running cell index. -/
def findDateInMarkdownAux : Nat → List Cell → Option (String × String)
  | _, [] => none
  | i, c :: rest =>
    match (if c.cell_type == "markdown" then
        (searchDatePatterns (extract_cell_source c)).map
          (fun d => (d, "markdown cell " ++ toString i))
      else none) with
    | some r => some r
    | none => findDateInMarkdownAux (i + 1) rest

def findDateInMarkdown (cells : List Cell) : Option (String × String) :=
  findDateInMarkdownAux 0 cells

/-- The README fallback of `check_metadata`: the sibling `README.md` is
modelled as `Option String` (`none` = missing or unreadable). -/
def findDateInReadme (readme : Option String) (check_readme : Bool) :
    Option (String × String) :=
  if check_readme then
    match readme with
    | some content => (searchDatePatterns content).map (fun d => (d, "README.md"))
    | none => none
  else none

/-- The `found_date`/`found_location` computation of `check_metadata`:
notebook metadata first, then markdown cells, then README. -/
def findVersionDate (nb : Notebook) (readme : Option String)
    (check_readme : Bool) : Option (String × String) :=
  match findDateInMetadata nb.metadata with
  | some r => some r
  | none =>
    match findDateInMarkdown nb.cells with
    | some r => some r
    | none => findDateInReadme readme check_readme

/-- `check_metadata` (metadata_checker.py): `"success"` iff a date was
found. -/
def check_metadata (nb : Notebook) (readme : Option String)
    (check_readme : Bool) : String :=
  if (findVersionDate nb readme check_readme).isSome then "success" else "failure"

/-! ### Theorems about `check_metadata` -/

/-- The date-pattern search finds nothing in an empty text. -/
theorem searchDatePatterns_empty : searchDatePatterns "" = none := by decide

/-- The bold markdown convention `**Last updated:** 2025-01-15` matches no
date pattern: the `**` between the colon and the date is not whitespace. -/
def nbBold : Notebook :=
  { cells := [ { cell_type := "markdown",
                 source := .str "**Last updated:** 2025-01-15",
                 outputs := [] } ],
    metadata := [] }

/-- C7 counterexample.  A notebook whose (first and only) markdown cell is
exactly `**Last updated:** 2025-01-15`, with no notebook metadata and a
missing (or empty) README, makes `check_metadata` return `"failure"`, not
`"success"`: no date pattern tolerates the `**` between `updated:` and the
date. -/
theorem check_metadata_bold_cex :
    nbBold.cells.map extract_cell_source = ["**Last updated:** 2025-01-15"] ∧
    (nbBold.cells.map (fun c => c.cell_type)) = ["markdown"] ∧
    searchDatePatterns "**Last updated:** 2025-01-15" = none ∧
    check_metadata nbBold none true = "failure" ∧
    check_metadata nbBold (some "") true = "failure" := by
  decide

theorem findDateInMarkdownAux_first {cells : List Cell} {idx : Nat}
    {cell : Cell} {d : String} (i : Nat)
    (hget : cells.get? idx = some cell)
    (hfirst : ∀ c ∈ cells.take idx, c.cell_type ≠ "markdown")
    (hmd : cell.cell_type = "markdown")
    (hd : searchDatePatterns (extract_cell_source cell) = some d) :
    findDateInMarkdownAux i cells
      = some (d, "markdown cell " ++ toString (i + idx)) := by
  induction cells generalizing idx i with
  | nil => simp [List.get?] at hget
  | cons c0 rest ih =>
    cases idx with
    | zero =>
      simp only [List.get?] at hget
      injection hget with hc0
      subst hc0
      simp [findDateInMarkdownAux, hmd, hd]
    | succ k =>
      have hc0 : c0.cell_type ≠ "markdown" :=
        hfirst c0 (by simp [List.take_succ_cons])
      have hgetk : rest.get? k = some cell := by simpa [List.get?] using hget
      have hfirstk : ∀ c ∈ rest.take k, c.cell_type ≠ "markdown" := by
        intro c hc
        exact hfirst c (by simp [List.take_succ_cons, hc])
      have hrec := ih (i := i + 1) hgetk hfirstk
      unfold findDateInMarkdownAux
      rw [if_neg (by simp [hc0])]
      rw [hrec]
      rw [show i + 1 + k = i + (k + 1) from by omega]

/-- C7 amended.  (i) When the notebook-level metadata yields no date and the
first markdown cell's source yields `2025-01-15` as its first date-pattern
match — e.g. it contains `Last updated: 2025-01-15` in plain form, with only
optional `:` and whitespace between the keyword and the date — the result is
`"success"` with extracted date `2025-01-15` at that cell.  The bold form
`**Last updated:** 2025-01-15` is not matched (see the counterexample).
(ii) With no date match in metadata or markdown cells and a missing or empty
README, the result is `"failure"`. -/
theorem check_metadata_first_markdown_date (nb : Notebook)
    (readme : Option String) (idx : Nat) (cell : Cell)
    (hmeta : findDateInMetadata nb.metadata = none)
    (hget : nb.cells.get? idx = some cell)
    (hfirst : ∀ c ∈ nb.cells.take idx, c.cell_type ≠ "markdown")
    (hmd : cell.cell_type = "markdown")
    (hsearch : searchDatePatterns (extract_cell_source cell) = some "2025-01-15") :
    (findVersionDate nb readme true
        = some ("2025-01-15", "markdown cell " ++ toString idx) ∧
     check_metadata nb readme true = "success") ∧
    (∀ (nb2 : Notebook) (readme2 : Option String) (cr : Bool),
      findDateInMetadata nb2.metadata = none →
      findDateInMarkdown nb2.cells = none →
      (readme2 = none ∨ readme2 = some "") →
      check_metadata nb2 readme2 cr = "failure") := by
  have hmarkdown : findDateInMarkdown nb.cells
      = some ("2025-01-15", "markdown cell " ++ toString idx) := by
    have := findDateInMarkdownAux_first (i := 0) hget hfirst hmd hsearch
    simpa [findDateInMarkdown] using this
  refine ⟨⟨?_, ?_⟩, ?_⟩
  · unfold findVersionDate
    rw [hmeta, hmarkdown]
  · unfold check_metadata findVersionDate
    rw [hmeta, hmarkdown]
    rfl
  · intro nb2 readme2 cr h1 h2 h3
    have hreadme : findDateInReadme readme2 cr = none := by
      unfold findDateInReadme
      cases cr with
      | false => rfl
      | true =>
        rcases h3 with rfl | rfl
        · rfl
        · simp [searchDatePatterns_empty]
    unfold check_metadata findVersionDate
    rw [h1, h2, hreadme]
    rfl

/-- The first (and only) markdown cell of the C7 witness notebook: the date
convention in plain form. -/
def mdCellW7 : Cell :=
  { cell_type := "markdown", source := .str "Last updated: 2025-01-15",
    outputs := [] }

def nbW7 : Notebook :=
  { cells := [ { cell_type := "code", source := .str "x = 1", outputs := [] },
               mdCellW7 ],
    metadata := [("version", "draft")] }

/-- Witness for C7's amended theorem: the plain `Last updated: 2025-01-15`
in the first markdown cell (index 1, after a code cell) succeeds with the
extracted date, and the no-date/empty-README branch fails. -/
theorem check_metadata_first_markdown_date_witness :
    (findVersionDate nbW7 none true
        = some ("2025-01-15", "markdown cell " ++ toString 1) ∧
     check_metadata nbW7 none true = "success") ∧
    (∀ (nb2 : Notebook) (readme2 : Option String) (cr : Bool),
      findDateInMetadata nb2.metadata = none →
      findDateInMarkdown nb2.cells = none →
      (readme2 = none ∨ readme2 = some "") →
      check_metadata nb2 readme2 cr = "failure") :=
  check_metadata_first_markdown_date nbW7 none 1 mdCellW7
    (by decide) (by decide) (by decide) (by decide) (by decide)

/-- Is `s` exactly a bare ISO date `\d{4}-\d{2}-\d{2}` (no keyword, nothing
else)? -/
def isBareIsoDate (s : String) : Bool :=
  match matchDate s.toList with
  | some (d, rest) => rest.isEmpty && d == s
  | none => false

theorem toNat_lt_of_isDigit {c : Char} (h : c.isDigit = true) : c.toNat < 65 := by
  simp [Char.isDigit] at h
  obtain ⟨-, h2⟩ := h
  rw [UInt32.le_def, BitVec.le_def] at h2
  rw [show ((57 : UInt32).toBitVec.toNat) = 57 from rfl] at h2
  simp only [Char.toNat, UInt32.toNat]
  omega

/-- Every character of a bare ISO date is a digit or `-`, hence has code
point below 65 (in particular it is not a letter). -/
theorem bareIsoDate_chars {v : String} (h : isBareIsoDate v = true) :
    ∀ c ∈ v.toList, c.toNat < 65 := by
  unfold isBareIsoDate at h
  cases hm : matchDate v.toList with
  | none => rw [hm] at h; exact Bool.noConfusion h
  | some p =>
    obtain ⟨ds, rest⟩ := p
    rw [hm] at h
    rw [Bool.and_eq_true, List.isEmpty_iff] at h
    obtain ⟨hrest, -⟩ := h
    subst hrest
    rw [matchDate.eq_def] at hm
    split at hm
    next a b c d e f g i rest' heq =>
      split at hm
      next hdig =>
        injection hm with hm'
        injection hm' with hm1 hm2
        subst hm2
        simp only [Bool.and_eq_true] at hdig
        intro x hx
        rw [heq] at hx
        simp only [List.mem_cons, List.not_mem_nil, or_false] at hx
        rcases hx with rfl | rfl | rfl | rfl | rfl | rfl | rfl | rfl | rfl | rfl
        · exact toNat_lt_of_isDigit hdig.1.1.1.1.1.1.1
        · exact toNat_lt_of_isDigit hdig.1.1.1.1.1.1.2
        · exact toNat_lt_of_isDigit hdig.1.1.1.1.1.2
        · exact toNat_lt_of_isDigit hdig.1.1.1.1.2
        · decide
        · exact toNat_lt_of_isDigit hdig.1.1.1.2
        · exact toNat_lt_of_isDigit hdig.1.1.2
        · decide
        · exact toNat_lt_of_isDigit hdig.1.2
        · exact toNat_lt_of_isDigit hdig.2
      next => exact absurd hm (by simp)
    next => exact absurd hm (by simp)

/-- A case-insensitive literal starting with a lowercase letter cannot match
at a position whose first character has code point below 65. -/
theorem stripCi_keyword_none {k : Char} {kw l : List Char}
    (hk : 97 ≤ k.toNat) (hl : ∀ c ∈ l, c.toNat < 65) :
    stripCi (k :: kw) l = none := by
  cases l with
  | nil => rfl
  | cons c t =>
    have hc := hl c (List.mem_cons_self c t)
    unfold stripCi
    rw [if_neg]
    have h1 : k.toLower = k := by
      simp only [Char.toLower]
      rw [if_neg]
      omega
    have h2 : c.toLower = c := by
      simp only [Char.toLower]
      rw [if_neg]
      omega
    rw [h1, h2]
    simp only [beq_iff_eq]
    intro he
    rw [he] at hk
    omega

/-- No date pattern can match anywhere in a text whose characters all have
code points below 65: each pattern starts with a lowercase-letter keyword. -/
theorem searchDatePatterns_small_none {v : String}
    (hv : ∀ c ∈ v.toList, c.toNat < 65) :
    searchDatePatterns v = none := by
  have hsearch : ∀ (m : List Char → Option String),
      (∀ l, (∀ c ∈ l, c.toNat < 65) → m l = none) →
      searchFirstSome m v.toList = none := by
    intro m hm
    have haux : ∀ l, (∀ c ∈ l, c.toNat < 65) → searchFirstSome m l = none := by
      intro l
      induction l with
      | nil => intro h; unfold searchFirstSome; rw [hm [] (by simp)]
      | cons c t ih =>
        intro h
        unfold searchFirstSome
        rw [hm (c :: t) h]
        exact ih (fun x hx => h x (List.mem_cons_of_mem c hx))
    exact haux v.toList hv
  have h1 : ∀ l, (∀ c ∈ l, c.toNat < 65) → matchLastUpdatedDate l = none := by
    intro l hl
    unfold matchLastUpdatedDate
    rw [show "last".toList = 'l' :: ['a', 's', 't'] from rfl]
    rw [stripCi_keyword_none (by decide) hl]
  have h2 : ∀ l, (∀ c ∈ l, c.toNat < 65) → matchVersionDate l = none := by
    intro l hl
    unfold matchVersionDate
    rw [show "version".toList = 'v' :: "ersion".toList from rfl]
    rw [stripCi_keyword_none (by decide) hl]
  have h3 : ∀ kw1 : Char, ∀ kwr : List Char, 97 ≤ kw1.toNat →
      ∀ l, (∀ c ∈ l, c.toNat < 65) →
      (match stripCi (kw1 :: kwr) l with
        | none => none
        | some r => matchColonWsDate r) = Option.none (α := String) := by
    intro kw1 kwr hkw l hl
    rw [stripCi_keyword_none hkw hl]
  unfold searchDatePatterns date_pattern_list
  rw [List.findSome?_cons]
  rw [hsearch matchLastUpdatedDate h1]
  rw [List.findSome?_cons]
  rw [hsearch matchVersionDate h2]
  rw [List.findSome?_cons]
  rw [hsearch (kwColonWsDate "modified") (by
    intro l hl
    unfold kwColonWsDate
    exact h3 'm' "odified".toList (by decide) l hl)]
  rw [List.findSome?_cons]
  rw [hsearch (kwColonWsDate "date") (by
    intro l hl
    unfold kwColonWsDate
    exact h3 'd' "ate".toList (by decide) l hl)]
  rw [List.findSome?_cons]
  rw [hsearch (kwColonWsDate "updated") (by
    intro l hl
    unfold kwColonWsDate
    exact h3 'u' "pdated".toList (by decide) l hl)]
  rfl

/-- C10.  A notebook-level metadata field whose value is a bare ISO date
(such as `2025-01-15`) is never accepted as a version date: every date
pattern requires a keyword inside the value itself, so such values
contribute no match, `findDateInMetadata` is `none`, and the search falls
through to the markdown cells and the README. -/
theorem check_metadata_bare_date_ignored (nb : Notebook)
    (readme : Option String) (cr : Bool)
    (h : ∀ f ∈ metadataDateFields, (lookupStr nb.metadata f).all isBareIsoDate = true) :
    (∀ v : String, isBareIsoDate v = true → searchDatePatterns v = none) ∧
    findDateInMetadata nb.metadata = none ∧
    findVersionDate nb readme cr =
      (match findDateInMarkdown nb.cells with
       | some r => some r
       | none => findDateInReadme readme cr) := by
  have hbare : ∀ v : String, isBareIsoDate v = true → searchDatePatterns v = none :=
    fun v hv => searchDatePatterns_small_none (bareIsoDate_chars hv)
  have hmeta : findDateInMetadata nb.metadata = none := by
    unfold findDateInMetadata
    rw [List.findSome?_eq_none]
    intro f hf
    cases hlk : lookupStr nb.metadata f with
    | none => simp
    | some v =>
      have hv := h f hf
      rw [hlk] at hv
      simp only [Option.all_some] at hv
      simp [hbare v hv]
  refine ⟨hbare, hmeta, ?_⟩
  unfold findVersionDate
  rw [hmeta]

/-- The C10 witness notebook: two probed metadata fields carry bare ISO
dates, the markdown cell carries a keyworded date that is then found. -/
def nbW10 : Notebook :=
  { cells := [ { cell_type := "markdown", source := .str "Updated: 2026-02-03",
                 outputs := [] } ],
    metadata := [("date", "2025-01-15"), ("last_updated", "2024-12-31")] }

/-- Witness for C10: the bare-date metadata is ignored and the search falls
through to the markdown cell. -/
theorem check_metadata_bare_date_ignored_witness :
    findDateInMetadata nbW10.metadata = none ∧
    findVersionDate nbW10 none true = some ("2026-02-03", "markdown cell 0") :=
  ⟨(check_metadata_bare_date_ignored nbW10 none true (by decide)).2.1,
   by
     rw [(check_metadata_bare_date_ignored nbW10 none true (by decide)).2.2]
     decide⟩

/-! ## `accessibility_checker.py` -/

/-- Try to match `\(` `[^)]*` `\)` (resp. `\[` `[^\]]*` `\]`) at the head;
returns the remainder after the closing character.  The greedy negated class
is deterministic: it stops exactly at the first closing character. -/
def mdImgTryClose (openCh closeCh : Char) (l : List Char) : Option (List Char) :=
  match l with
  | o :: r =>
    if o == openCh then
      match r.dropWhile (fun x => !(x == closeCh)) with
      | _ :: r2 => some r2
      | [] => none
    else none
  | [] => none

/-- The lazy group `(.*?)\]` followed by the closing construct: at each `]`
first try to complete the match; on failure the `]` joins the alt text and
scanning continues.  `.` does not match a newline (no `re.DOTALL`). -/
def mdImgScan (openCh closeCh : Char) (acc : List Char) :
    List Char → Option (List Char × List Char)
  | [] => none
  | c :: rest =>
    if c == ']' then
      match mdImgTryClose openCh closeCh rest with
      | some r2 => some (acc.reverse, r2)
      | none => mdImgScan openCh closeCh (c :: acc) rest
    else if c == '\n' then none
    else mdImgScan openCh closeCh (c :: acc) rest

/-- Head-matcher for `!\[(.*?)\]\([^)]*\)` (with `('[', ']')` for the
reference-image variant `!\[(.*?)\]\[[^\]]*\]`); emits the alt group. -/
def matchMdImg (openCh closeCh : Char) (l : List Char) :
    Option (List Char × List Char) :=
  match l with
  | '!' :: '[' :: rest => mdImgScan openCh closeCh [] rest
  | _ => none

/-- `md_images + ref_images` of `check_accessibility`: the alt groups of the
two markdown image regexes, in that order. -/
def mdImageAlts (s : String) : List String :=
  findAllStr (matchMdImg '(' ')') s ++ findAllStr (matchMdImg '[' ']') s

/-- The HTML `<img>` issues of one markdown cell.  BeautifulSoup's tag
extraction is the opaque `extractImgs` argument: the list of `alt`
attributes (`none` = attribute absent) of the `img` elements of the source.
An issue is produced iff `img.get('alt', '').strip()` is falsy. -/
def htmlImgIssues (extractImgs : String → List (Option String)) (idx : Nat)
    (src : String) : List String :=
  (extractImgs src).filterMap (fun a =>
    if (pyStrip (a.getD "")).isEmpty then
      some (s!"Cell {idx}: <img> tag missing alt text")
    else none)

/-- Python truthiness of `metadata.get(key)` for string-valued fields. -/
def optTruthy : Option String → Bool
  | some v => !(v == "")
  | none => false

/-- The issues one cell contributes in `check_accessibility`. -/
def accCellIssues (extractImgs : String → List (Option String)) (idx : Nat)
    (cell : Cell) : List String :=
  if cell.cell_type == "markdown" then
    htmlImgIssues extractImgs idx (extract_cell_source cell) ++
    (mdImageAlts (extract_cell_source cell)).filterMap (fun alt =>
      if (pyStrip alt).isEmpty then
        some (s!"Cell {idx}: Markdown image missing alt text")
      else none)
  else if cell.cell_type == "code" then
    (cell.outputs.filter isImageOutput).filterMap (fun o =>
      if !optTruthy (lookupStr o.metadata "alt_text")
          && !optTruthy (lookupStr o.metadata "alt") then
        some (s!"Cell {idx}: Figure output missing alt text metadata")
      else none)
  else []

/-- All issues of `check_accessibility` over a notebook. -/
def accessibilityIssues (extractImgs : String → List (Option String))
    (nb : Notebook) : List String :=
  (nb.cells.enum.map (fun p => accCellIssues extractImgs p.1 p.2)).join

/-- `check_accessibility` (accessibility_checker.py). -/
def check_accessibility (extractImgs : String → List (Option String))
    (nb : Notebook) : String :=
  if (accessibilityIssues extractImgs nb).isEmpty then "success" else "failure"

/-! ### Theorems about `check_accessibility` -/

/-- An extraction reporting one `img` whose `alt` attribute is present with
the non-empty value `" "` (as BeautifulSoup yields for
`<img src="x.png" alt=" ">`). -/
def extractWsAlt : String → List (Option String) := fun _ => [some " "]

def nbW8 : Notebook :=
  { cells := [ { cell_type := "markdown",
                 source := .str "<img src=\"x.png\" alt=\" \">",
                 outputs := [] } ],
    metadata := [] }

/-- C8 counterexample.  An `img` element whose `alt` attribute is present
and non-empty (the one-space string) still produces an issue, because the
code tests `img.get('alt', '').strip()`: the notebook fails although every
`img` has a non-empty `alt`. -/
theorem check_accessibility_ws_alt_cex :
    (" " : String) ≠ "" ∧
    (extractWsAlt "<img src=\"x.png\" alt=\" \">").all (fun a => a.isSome && a.getD "" != "") = true ∧
    htmlImgIssues extractWsAlt 0 "<img src=\"x.png\" alt=\" \">"
      = ["Cell 0: <img> tag missing alt text"] ∧
    check_accessibility extractWsAlt nbW8 = "failure" := by
  decide

/-- C8 amended.  In `check_accessibility`, an HTML `img` whose `alt`
attribute is present and non-whitespace (non-empty after `strip()`) never
produces an issue, and an `img` whose `alt` is absent, empty, or
whitespace-only always produces exactly one issue: the number of issues of a
cell's `img` list equals the number of its stripped-empty `alt`s.  The
notebook's result is `"failure"` iff at least one issue was produced. -/
theorem check_accessibility_alt (e : String → List (Option String))
    (nb : Notebook) :
    (∀ idx src, (htmlImgIssues e idx src).length
        = ((e src).filter (fun a => (pyStrip (a.getD "")).isEmpty)).length) ∧
    (∀ idx src, htmlImgIssues e idx src = [] ↔
        ∀ a ∈ e src, (pyStrip (a.getD "")).isEmpty = false) ∧
    (check_accessibility e nb = "failure" ↔ accessibilityIssues e nb ≠ []) := by
  have key : ∀ (l : List (Option String)) (msg : String),
      ((l.filterMap (fun a =>
          if (pyStrip (a.getD "")).isEmpty then some msg else none)).length
        = (l.filter (fun a => (pyStrip (a.getD "")).isEmpty)).length)
      ∧ ((l.filterMap (fun a =>
          if (pyStrip (a.getD "")).isEmpty then some msg else none)) = [] ↔
          ∀ a ∈ l, (pyStrip (a.getD "")).isEmpty = false) := by
    intro l msg
    induction l with
    | nil => simp
    | cons a t ih =>
      by_cases ha : (pyStrip (a.getD "")).isEmpty = true
      · simp [ha, List.filterMap_cons, List.filter_cons, ih]
      · rw [Bool.not_eq_true] at ha
        simp [ha, List.filterMap_cons, List.filter_cons, ih]
  refine ⟨?_, ?_, ?_⟩
  · intro idx src
    exact (key (e src) _).1
  · intro idx src
    exact (key (e src) _).2
  · constructor
    · intro hfail hnil
      rw [check_accessibility, hnil] at hfail
      simp at hfail
    · intro hne
      rw [check_accessibility, if_neg (by simpa [List.isEmpty_iff] using hne)]

/-- An extraction with one properly described image and one missing `alt`. -/
def extractTwoImgs : String → List (Option String) := fun _ => [some "A chart", none]

/-- Witness for C8's amended theorem: of the two `img`s, exactly the one
with the missing `alt` is counted. -/
theorem check_accessibility_alt_witness :
    (htmlImgIssues extractTwoImgs 0 "doc").length
        = ((extractTwoImgs "doc").filter
            (fun a => (pyStrip (a.getD "")).isEmpty)).length ∧
    (htmlImgIssues extractTwoImgs 0 "doc").length = 1 :=
  ⟨(check_accessibility_alt extractTwoImgs nbW8).1 0 "doc", by decide⟩

/-! ## `utils.py` — `write_results` and the JSON round trip

`write_results` serializes `{"command": <name>, "results": {<path>: <result>,
...}}` with `json.dump(..., indent=2)` (default `ensure_ascii=True`).  The
embedding produces the exact file content as a string; creating the output
directory and overwriting the file are file-system effects out of scope.
The parser below models `json.loads` restricted to the grammar this file
uses (strings and string-keyed objects of nesting depth two, which is the
schema `write_results` emits). -/

inductive JVal where
  | jstr (s : String)
  | jobj (fields : List (String × JVal))

/-- Lowercase hex digit, as CPython's `'\\u%04x'` formatting emits. -/
def hexDig (n : Nat) : Char :=
  if n < 10 then Char.ofNat (48 + n) else Char.ofNat (87 + n)

def hex4 (n : Nat) : List Char :=
  [hexDig (n / 4096 % 16), hexDig (n / 256 % 16), hexDig (n / 16 % 16),
   hexDig (n % 16)]

/-- One character of `json.dump`'s `ensure_ascii` string escaping: named
escapes, printable ASCII verbatim, `\uXXXX` otherwise (UTF-16 surrogate
pairs beyond the BMP). -/
def escJsonChar (c : Char) : List Char :=
  if c == '"' then ['\\', '"']
  else if c == '\\' then ['\\', '\\']
  else if c == '\n' then ['\\', 'n']
  else if c == '\r' then ['\\', 'r']
  else if c == '\t' then ['\\', 't']
  else if c.toNat == 8 then ['\\', 'b']
  else if c.toNat == 12 then ['\\', 'f']
  else if 32 ≤ c.toNat && c.toNat ≤ 126 then [c]
  else if c.toNat < 65536 then '\\' :: 'u' :: hex4 c.toNat
  else
    ('\\' :: 'u' :: hex4 (55296 + (c.toNat - 65536) / 1024))
      ++ ('\\' :: 'u' :: hex4 (56320 + (c.toNat - 65536) % 1024))

def escJsonList : List Char → List Char
  | [] => []
  | c :: t => escJsonChar c ++ escJsonList t

def escJson (s : String) : List Char := escJsonList s.toList

/-- A JSON string literal (quotes plus escaped body). -/
def jsonStrLitL (s : String) : List Char := '"' :: (escJson s ++ ['"'])

/-- `"key": "value"` with `json.dump`'s default `': '` key separator. -/
def serPairL (p : String × String) : List Char :=
  jsonStrLitL p.1 ++ (':' :: ' ' :: jsonStrLitL p.2)

/-- `,\n    ` plus the next pair, for each pair after the first. -/
def serPairsTailL : List (String × String) → List Char
  | [] => []
  | p :: ps =>
    ',' :: '\n' :: ' ' :: ' ' :: ' ' :: ' ' :: (serPairL p ++ serPairsTailL ps)

/-- The `results` object at indent level 1. -/
def serResultsObjL : List (String × String) → List Char
  | [] => ['{', '}']
  | p :: ps =>
    '{' :: '\n' :: ' ' :: ' ' :: ' ' :: ' ' ::
      (serPairL p ++ serPairsTailL ps ++ ('\n' :: ' ' :: ' ' :: ['}']))

/-- `write_results` (utils.py): the content of
`<output_dir>/<command_name>-results.json` produced by
`json.dump({"command": command_name, "results": notebook_results}, f,
indent=2)`.  The results mapping is in dict insertion order. -/
def write_results (command_name : String)
    (notebook_results : List (String × String)) : String :=
  String.mk ('{' :: '\n' :: ' ' :: ' ' ::
    (jsonStrLitL "command" ++ (':' :: ' ' :: jsonStrLitL command_name)
      ++ (',' :: '\n' :: ' ' :: ' ' ::
        (jsonStrLitL "results" ++ (':' :: ' ' :: serResultsObjL notebook_results)
          ++ ['\n', '}']))))

/-- The JSON value `{"command": <name>, "results": <results>}` that the file
content is expected to parse back to. -/
def resultsJson (name : String) (results : List (String × String)) : JVal :=
  JVal.jobj [("command", JVal.jstr name),
             ("results", JVal.jobj (results.map (fun p => (p.1, JVal.jstr p.2))))]

/-! ### The `json.loads` model (strings and depth-two objects) -/

/-- JSON whitespace. -/
def jsonWs (c : Char) : Bool :=
  c == ' ' || c == '\t' || c == '\n' || c == '\r'

def skipWs (l : List Char) : List Char := l.dropWhile jsonWs

def hexVal (c : Char) : Option Nat :=
  if 48 ≤ c.toNat && c.toNat ≤ 57 then some (c.toNat - 48)
  else if 97 ≤ c.toNat && c.toNat ≤ 102 then some (c.toNat - 87)
  else if 65 ≤ c.toNat && c.toNat ≤ 70 then some (c.toNat - 55)
  else none

def hex4Val (a b c d : Char) : Option Nat :=
  match hexVal a, hexVal b, hexVal c, hexVal d with
  | some x, some y, some z, some w => some (x * 4096 + y * 256 + z * 16 + w)
  | _, _, _, _ => none

def escDecode (e : Char) : Option Char :=
  if e == '"' then some '"'
  else if e == '\\' then some '\\'
  else if e == '/' then some '/'
  else if e == 'b' then some (Char.ofNat 8)
  else if e == 'f' then some (Char.ofNat 12)
  else if e == 'n' then some '\n'
  else if e == 'r' then some '\r'
  else if e == 't' then some '\t'
  else none

/-- Lookahead for the four hex digits of a `\\uXXXX` escape. -/
def take4Hex : List Char → Option (Nat × List Char)
  | a :: b :: c :: d :: rest => (hex4Val a b c d).map (fun n => (n, rest))
  | _ => none

/-- Lookahead for a `\\uXXXX` low surrogate following a high surrogate. -/
def parseLowSurrogate (l : List Char) : Option (Nat × List Char) :=
  match l with
  | c1 :: c2 :: rest =>
    if c1 == '\\' && c2 == 'u' then
      match take4Hex rest with
      | some (m, r2) => if 56320 ≤ m ∧ m ≤ 57343 then some (m, r2) else none
      | none => none
    else none
  | _ => none

/-- Parse the body of a JSON string literal up to the closing quote (the
`json.loads` string scanner).  `\\uXXXX` surrogate pairs are recombined; a
lone surrogate — which `json.loads` would turn into an unpaired-surrogate
Python string — has no `Char` counterpart and is rejected.  The fuel is
decremented once per consumed escape or character, so any fuel above the
input length is enough. -/
def parseJStringAuxF : Nat → List Char → Option (List Char × List Char)
  | 0, _ => none
  | _ + 1, [] => none
  | fuel + 1, c :: rest =>
    if c == '"' then some ([], rest)
    else if c == '\\' then
      match rest with
      | [] => none
      | e :: r2 =>
        if e == 'u' then
          match take4Hex r2 with
          | none => none
          | some (n, r3) =>
            if 55296 ≤ n ∧ n ≤ 56319 then
              match parseLowSurrogate r3 with
              | none => none
              | some (m, r4) =>
                (parseJStringAuxF fuel r4).map (fun p =>
                  (Char.ofNat (65536 + (n - 55296) * 1024 + (m - 56320))
                    :: p.1, p.2))
            else if 56320 ≤ n ∧ n ≤ 57343 then none
            else (parseJStringAuxF fuel r3).map
                (fun p => (Char.ofNat n :: p.1, p.2))
        else
          match escDecode e with
          | some ch => (parseJStringAuxF fuel r2).map
              (fun p => (ch :: p.1, p.2))
          | none => none
    else (parseJStringAuxF fuel rest).map (fun p => (c :: p.1, p.2))

/-- Parse a JSON string literal.  Each scanner step consumes at least one
character, so `rest.length + 1` fuel is always sufficient. -/
def parseJStr (l : List Char) : Option (String × List Char) :=
  match l with
  | '"' :: rest => (parseJStringAuxF (rest.length + 1) rest).map
      (fun p => (String.mk p.1, p.2))
  | _ => none

/-- Member loop of a `{string: string}` object (the `results` object), after
the opening `{`; the fuel is decremented once per member. -/
def parseInnerMembers : Nat → List Char → List (String × JVal) →
    Option (List (String × JVal) × List Char)
  | 0, _, _ => none
  | fuel + 1, l, acc =>
    match parseJStr (skipWs l) with
    | none => none
    | some (k, r1) =>
      match skipWs r1 with
      | ':' :: r2 =>
        match parseJStr (skipWs r2) with
        | none => none
        | some (v, r3) =>
          match skipWs r3 with
          | ',' :: r4 => parseInnerMembers fuel r4 (acc ++ [(k, JVal.jstr v)])
          | '}' :: r4 => some (acc ++ [(k, JVal.jstr v)], r4)
          | _ => none
      | _ => none

/-- One value of the outer object: a string or a (depth-one) object. -/
def parseOuterValue (l : List Char) : Option (JVal × List Char) :=
  match l with
  | '"' :: _ => (parseJStr l).map (fun p => (JVal.jstr p.1, p.2))
  | '{' :: rs =>
    match skipWs rs with
    | '}' :: rr => some (JVal.jobj [], rr)
    | _ => (parseInnerMembers rs.length rs []).map (fun p => (JVal.jobj p.1, p.2))
  | _ => none

/-- Member loop of the outer object: values are strings or inner objects. -/
def parseOuterMembers : Nat → List Char → List (String × JVal) →
    Option (List (String × JVal) × List Char)
  | 0, _, _ => none
  | fuel + 1, l, acc =>
    match parseJStr (skipWs l) with
    | none => none
    | some (k, r1) =>
      match skipWs r1 with
      | ':' :: r2 =>
        match parseOuterValue (skipWs r2) with
        | none => none
        | some (v, r3) =>
          match skipWs r3 with
          | ',' :: r4 => parseOuterMembers fuel r4 (acc ++ [(k, v)])
          | '}' :: r4 => some (acc ++ [(k, v)], r4)
          | _ => none
      | _ => none

/-- Parse a whole results file: one top-level object, then only whitespace. -/
def parseResultsJson (s : String) : Option JVal :=
  match skipWs s.toList with
  | '{' :: rest =>
    match skipWs rest with
    | '}' :: r2 => if (skipWs r2).isEmpty then some (JVal.jobj []) else none
    | _ =>
      match parseOuterMembers rest.length rest [] with
      | some (fields, r3) =>
        if (skipWs r3).isEmpty then some (JVal.jobj fields) else none
      | none => none
  | _ => none


/-! ### The string-escape round trip -/

theorem hexVal_hexDig : ∀ n, n < 16 → hexVal (hexDig n) = some n := by decide

theorem hex4Val_hexDigs {n : Nat} (h : n < 65536) :
    hex4Val (hexDig (n / 4096 % 16)) (hexDig (n / 256 % 16))
      (hexDig (n / 16 % 16)) (hexDig (n % 16)) = some n := by
  unfold hex4Val
  rw [hexVal_hexDig (n / 4096 % 16) (by omega),
    hexVal_hexDig (n / 256 % 16) (by omega),
    hexVal_hexDig (n / 16 % 16) (by omega),
    hexVal_hexDig (n % 16) (by omega)]
  simp only [Option.some.injEq]
  omega

/-- The code-point facts carried by every `Char`. -/
theorem char_toNat_valid (c : Char) :
    c.toNat < 55296 ∨ (57343 < c.toNat ∧ c.toNat < 1114112) := c.valid

/-- The scanner step on an escaped surrogate pair. -/
theorem parseJStringAuxF_surrogate (fuel : Nat) (d1 d2 d3 d4 e1 e2 e3 e4 : Char)
    (n m : Nat) (tail : List Char)
    (hv1 : hex4Val d1 d2 d3 d4 = some n)
    (hn : 55296 ≤ n ∧ n ≤ 56319)
    (hv2 : hex4Val e1 e2 e3 e4 = some m)
    (hm : 56320 ≤ m ∧ m ≤ 57343) :
    parseJStringAuxF (fuel + 1)
        ('\\' :: 'u' :: d1 :: d2 :: d3 :: d4 :: '\\' :: 'u' :: e1 :: e2 :: e3 :: e4 :: tail)
      = (parseJStringAuxF fuel tail).map (fun p =>
          (Char.ofNat (65536 + (n - 55296) * 1024 + (m - 56320)) :: p.1, p.2)) := by
  simp [parseJStringAuxF, take4Hex, parseLowSurrogate, hv1, hv2, hn, hm]

/-- Parsing inverts the `ensure_ascii` escaping, one character at a time. -/
theorem parseJStringAux_esc (s : List Char) (rest : List Char) :
    ∀ fuel, s.length < fuel →
    parseJStringAuxF fuel (escJsonList s ++ '"' :: rest) = some (s, rest) := by
  induction s with
  | nil =>
    intro fuel hfuel
    cases fuel with
    | zero => omega
    | succ f => simp [escJsonList, parseJStringAuxF]
  | cons c t ih =>
    intro fuel hfuel
    cases fuel with
    | zero => omega
    | succ f =>
      have ihf := ih f (by simpa using Nat.lt_of_succ_lt_succ hfuel)
      rw [escJsonList, List.append_assoc]
      unfold escJsonChar
      split_ifs with h1 h2 h3 h4 h5 h6 h7 h8 h9
      · rw [show c = '"' from by simpa using h1]
        simp [parseJStringAuxF, escDecode, ihf]
      · rw [show c = '\\' from by simpa using h2]
        simp [parseJStringAuxF, escDecode, ihf]
      · rw [show c = '\n' from by simpa using h3]
        simp [parseJStringAuxF, escDecode, ihf]
      · rw [show c = '\r' from by simpa using h4]
        simp [parseJStringAuxF, escDecode, ihf]
      · rw [show c = '\t' from by simpa using h5]
        simp [parseJStringAuxF, escDecode, ihf]
      · rw [show c = Char.ofNat 8 from by
          rw [← Char.ofNat_toNat c, show c.toNat = 8 from by simpa using h6]]
        simp [parseJStringAuxF, escDecode, ihf]
      · rw [show c = Char.ofNat 12 from by
          rw [← Char.ofNat_toNat c, show c.toNat = 12 from by simpa using h7]]
        simp [parseJStringAuxF, escDecode, ihf]
      · have h1' : (c == '"') = false := by simpa using h1
        have h2' : (c == '\\') = false := by simpa using h2
        simp [parseJStringAuxF, h1', h2', ihf]
      · have hval := char_toNat_valid c
        have hs1 : ¬(55296 ≤ c.toNat ∧ c.toNat ≤ 56319) := by omega
        have hs2 : ¬(56320 ≤ c.toNat ∧ c.toNat ≤ 57343) := by omega
        simp [hex4, parseJStringAuxF, take4Hex, hex4Val_hexDigs h9, hs1, hs2, ihf]
      · have hval := char_toNat_valid c
        have hlt : c.toNat < 1114112 := by omega
        have hhi : 55296 + (c.toNat - 65536) / 1024 < 65536 := by omega
        have hlo : 56320 + (c.toNat - 65536) % 1024 < 65536 := by omega
        have hs1 : 55296 ≤ 55296 + (c.toNat - 65536) / 1024 ∧
            55296 + (c.toNat - 65536) / 1024 ≤ 56319 := ⟨by omega, by omega⟩
        have hs2 : 56320 ≤ 56320 + (c.toNat - 65536) % 1024 ∧
            56320 + (c.toNat - 65536) % 1024 ≤ 57343 := ⟨by omega, by omega⟩
        simp only [hex4, List.cons_append, List.append_assoc, List.nil_append]
        rw [parseJStringAuxF_surrogate f _ _ _ _ _ _ _ _ _ _ _
          (hex4Val_hexDigs hhi) hs1 (hex4Val_hexDigs hlo) hs2]
        rw [ihf]
        simp only [Option.map_some']
        rw [show 65536 + (55296 + (c.toNat - 65536) / 1024 - 55296) * 1024
            + (56320 + (c.toNat - 65536) % 1024 - 56320) = c.toNat from by omega,
          Char.ofNat_toNat]

/-! ### The object-level round trip -/

theorem stringMk_toList (s : String) : String.mk s.toList = s := rfl

theorem escJsonChar_length_pos (c : Char) : 1 ≤ (escJsonChar c).length := by
  unfold escJsonChar
  split_ifs <;> simp [hex4]

theorem escJsonList_length_ge (l : List Char) :
    l.length ≤ (escJsonList l).length := by
  induction l with
  | nil => simp [escJsonList]
  | cons c t ih =>
    simp only [escJsonList, List.length_append, List.length_cons]
    have := escJsonChar_length_pos c
    omega

theorem serPairsTailL_length_ge (ps : List (String × String)) :
    ps.length ≤ (serPairsTailL ps).length := by
  induction ps with
  | nil => simp [serPairsTailL]
  | cons p t ih =>
    simp only [serPairsTailL, List.length_cons, List.length_append]
    omega

theorem skipWs_nl (l : List Char) : skipWs ('\n' :: l) = skipWs l := rfl
theorem skipWs_sp (l : List Char) : skipWs (' ' :: l) = skipWs l := rfl
theorem skipWs_colon (l : List Char) : skipWs (':' :: l) = ':' :: l := rfl
theorem skipWs_comma (l : List Char) : skipWs (',' :: l) = ',' :: l := rfl
theorem skipWs_rbrace (l : List Char) : skipWs ('}' :: l) = '}' :: l := rfl
theorem skipWs_lbrace (l : List Char) : skipWs ('{' :: l) = '{' :: l := rfl
theorem skipWs_quote (l : List Char) : skipWs ('"' :: l) = '"' :: l := rfl
theorem skipWs_nil : skipWs [] = [] := rfl

/-- A serialized string literal in head-exposed form. -/
theorem strLit_append (s : String) (tail : List Char) :
    jsonStrLitL s ++ tail = '"' :: (escJsonList s.toList ++ ('"' :: tail)) := by
  simp [jsonStrLitL, escJson]

/-- Parsing a serialized string literal recovers the string. -/
theorem parseJStr_quote (s : String) (tail : List Char) :
    parseJStr ('"' :: (escJsonList s.toList ++ ('"' :: tail))) = some (s, tail) := by
  have hlen : s.toList.length < (escJsonList s.toList ++ ('"' :: tail)).length + 1 := by
    have := escJsonList_length_ge s.toList
    simp only [List.length_append, List.length_cons]
    omega
  have hstep : parseJStr ('"' :: (escJsonList s.toList ++ ('"' :: tail)))
      = (parseJStringAuxF ((escJsonList s.toList ++ ('"' :: tail)).length + 1)
          (escJsonList s.toList ++ ('"' :: tail))).map
            (fun p => (String.mk p.1, p.2)) := rfl
  rw [hstep, parseJStringAux_esc s.toList tail _ hlen]
  simp [stringMk_toList]

/-- Parsing the members of a serialized non-empty results object. -/
theorem parseInnerMembers_loop (p : String × String) (ps : List (String × String))
    (acc : List (String × JVal)) (tail : List Char) :
    ∀ fuel, ps.length < fuel →
    parseInnerMembers fuel
      ('\n' :: ' ' :: ' ' :: ' ' :: ' ' ::
        ((serPairL p ++ serPairsTailL ps ++ ('\n' :: ' ' :: ' ' :: ['}'])) ++ tail))
      acc
      = some (acc ++ (p :: ps).map (fun q => (q.1, JVal.jstr q.2)), tail) := by
  induction ps generalizing p acc with
  | nil =>
    intro fuel hfuel
    cases fuel with
    | zero => omega
    | succ f =>
      simp only [serPairsTailL, List.append_nil, serPairL, List.append_assoc,
        List.cons_append, List.nil_append]
      simp only [parseInnerMembers, skipWs_nl, skipWs_sp, strLit_append,
        skipWs_quote, parseJStr_quote, skipWs_colon, skipWs_rbrace]
      simp
  | cons q qs ih =>
    intro fuel hfuel
    cases fuel with
    | zero => omega
    | succ f =>
      simp only [serPairsTailL, serPairL, List.append_assoc, List.cons_append,
        List.nil_append]
      simp only [parseInnerMembers, skipWs_nl, skipWs_sp, strLit_append,
        skipWs_quote, parseJStr_quote, skipWs_colon, skipWs_comma]
      have ihq := ih q (acc ++ [(p.1, JVal.jstr p.2)]) f
        (by simpa using Nat.lt_of_succ_lt_succ hfuel)
      simp only [serPairL, strLit_append, List.append_assoc, List.cons_append,
        List.nil_append] at ihq
      rw [ihq]
      simp

/-- Parsing a serialized string value of the outer object. -/
theorem parseOuterValue_str (s : String) (tail : List Char) :
    parseOuterValue ('"' :: (escJsonList s.toList ++ ('"' :: tail)))
      = some (JVal.jstr s, tail) := by
  have hstep : parseOuterValue ('"' :: (escJsonList s.toList ++ ('"' :: tail)))
      = (parseJStr ('"' :: (escJsonList s.toList ++ ('"' :: tail)))).map
          (fun p => (JVal.jstr p.1, p.2)) := rfl
  rw [hstep, parseJStr_quote]
  rfl

/-- Parsing a serialized results object recovers the mapping. -/
theorem parseOuterValue_results (results : List (String × String))
    (tail : List Char) :
    parseOuterValue (serResultsObjL results ++ tail)
      = some (JVal.jobj (results.map (fun p => (p.1, JVal.jstr p.2))), tail) := by
  cases results with
  | nil =>
    have hstep : parseOuterValue ('{' :: '}' :: tail)
        = some (JVal.jobj [], tail) := rfl
    simpa [serResultsObjL] using hstep
  | cons p ps =>
    simp only [serResultsObjL, List.cons_append]
    have hstep : ∀ rs, parseOuterValue ('{' :: rs)
        = (match skipWs rs with
           | '}' :: rr => some (JVal.jobj [], rr)
           | _ => (parseInnerMembers rs.length rs []).map
               (fun q => (JVal.jobj q.1, q.2))) := fun rs => rfl
    rw [hstep]
    have hloop := parseInnerMembers_loop p ps [] tail
      (('\n' :: ' ' :: ' ' :: ' ' :: ' ' ::
        ((serPairL p ++ serPairsTailL ps ++ ('\n' :: ' ' :: ' ' :: ['}'])) ++ tail)).length)
      (by
        simp only [List.length_cons, List.length_append]
        have := serPairsTailL_length_ge ps
        omega)
    simp only [List.nil_append] at hloop
    simp only [skipWs_nl, skipWs_sp, serPairL, strLit_append, List.append_assoc,
      List.cons_append, skipWs_quote] at hloop ⊢
    rw [hloop]
    simp

/-- One thing the outer loop needs: a serialized results object (which
always opens with `{`) passes through `skipWs` unchanged. -/
theorem skipWs_serResultsObj (results : List (String × String)) (z : List Char) :
    skipWs (serResultsObjL results ++ z) = serResultsObjL results ++ z := by
  cases results with
  | nil => rfl
  | cons p ps => rfl

/-- Parsing the two members of the outer object of a results file. -/
theorem parseOuterMembers_two (name : String) (results : List (String × String)) :
    ∀ fuel, 2 ≤ fuel →
    parseOuterMembers fuel
      ('\n' :: ' ' :: ' ' ::
        (jsonStrLitL "command" ++ (':' :: ' ' :: jsonStrLitL name)
          ++ (',' :: '\n' :: ' ' :: ' ' ::
            (jsonStrLitL "results" ++ (':' :: ' ' :: serResultsObjL results)
              ++ ['\n', '}'])))) []
      = some ([("command", JVal.jstr name),
               ("results", JVal.jobj (results.map (fun p => (p.1, JVal.jstr p.2))))],
              []) := by
  intro fuel hfuel
  obtain ⟨f2, rfl⟩ : ∃ f2, fuel = f2 + 1 + 1 := ⟨fuel - 2, by omega⟩
  simp only [List.append_assoc, List.cons_append, strLit_append]
  simp only [parseOuterMembers, skipWs_nl, skipWs_sp, skipWs_quote,
    parseJStr_quote, skipWs_colon, skipWs_comma, parseOuterValue_str,
    skipWs_serResultsObj, parseOuterValue_results, skipWs_rbrace,
    List.nil_append]
  simp

/-- C9.  For every checker name and every results mapping, the file content
`write_results` produces parses back (with the `json.loads` model) to
exactly the JSON object `{"command": <name>, "results": <mapping>}`. -/
theorem write_results_roundtrip (name : String)
    (results : List (String × String)) :
    parseResultsJson (write_results name results)
      = some (resultsJson name results) := by
  have htoList : (write_results name results).toList
      = '{' :: '\n' :: ' ' :: ' ' ::
        (jsonStrLitL "command" ++ (':' :: ' ' :: jsonStrLitL name)
          ++ (',' :: '\n' :: ' ' :: ' ' ::
            (jsonStrLitL "results" ++ (':' :: ' ' :: serResultsObjL results)
              ++ ['\n', '}']))) := rfl
  have hlen : 2 ≤ ('\n' :: ' ' :: ' ' ::
      (jsonStrLitL "command" ++ (':' :: ' ' :: jsonStrLitL name)
        ++ (',' :: '\n' :: ' ' :: ' ' ::
          (jsonStrLitL "results" ++ (':' :: ' ' :: serResultsObjL results)
            ++ ['\n', '}'])))).length := by
    simp only [List.length_cons]
    omega
  have houter := parseOuterMembers_two name results _ hlen
  unfold parseResultsJson
  rw [htoList, skipWs_lbrace]
  simp only [strLit_append, List.append_assoc, List.cons_append] at houter ⊢
  rw [skipWs_nl, skipWs_sp, skipWs_sp, skipWs_quote]
  rw [houter]
  simp [resultsJson, skipWs_nil]

/-- Witness for C9 at the concrete instance of the claim:
`{"a.ipynb": "success", "b.ipynb": "failure"}` under `doi_checker`
round-trips exactly, and the produced file content is the `json.dump`
text. -/
theorem write_results_roundtrip_witness :
    parseResultsJson
        (write_results "doi_checker" [("a.ipynb", "success"), ("b.ipynb", "failure")])
      = some (resultsJson "doi_checker" [("a.ipynb", "success"), ("b.ipynb", "failure")])
    ∧ write_results "doi_checker" [("a.ipynb", "success"), ("b.ipynb", "failure")]
      = "\x7b\n  \"command\": \"doi_checker\",\n  \"results\": \x7b\n    \"a.ipynb\": \"success\",\n    \"b.ipynb\": \"failure\"\n  \x7d\n\x7d" :=
  ⟨write_results_roundtrip "doi_checker" [("a.ipynb", "success"), ("b.ipynb", "failure")],
   by decide⟩
